import Mathlib

/-!
Verification of the tlsdebug ClientHello-sniffing core.

The embedding below follows the Go source closely:
 - `handshakeRecord` slices one TLS handshake record out of a byte buffer,
 - `parseHello` extracts the ClientHello body from a record payload,
 - `ClientHelloConn.Read` is the per-connection read step of the sniffing
   decorator, with the underlying transport's result (delivered bytes and
   error) supplied as input, and the observer callback, the returned
   bytes/error and the successor state made explicit in the output,
 - `ClientHelloConn.Close` is the close step.

Bytes are modelled as `Fin 256`; the Go error values become the inductive
`HSErr`, with `io.ErrUnexpectedEOF` (the not-enough-data sentinel) as
`HSErr.unexpectedEOF`; fallible parsers return `Except`.
-/

abbrev Byte := Fin 256

deriving instance DecidableEq for Except

/-- The error values produced by the two parsers in versions.go.
`unexpectedEOF` stands for the sentinel io.ErrUnexpectedEOF (need more
data); every other constructor is one of the terminal errors. -/
inductive HSErr where
  | unexpectedEOF : HSErr
  | sslv2 : HSErr
  | notHandshake : HSErr
  | unsupportedVersion (vers : Nat) : HSErr
  | recordTooLarge : HSErr
  | handshakeTooShort : HSErr
  | notClientHello (typ : Nat) : HSErr
  | invalidHandshakeLength : HSErr
deriving DecidableEq

/-- Embedding of handshakeRecord from versions.go: read one TLS record,
which must be for the handshake protocol, from b. The 5-byte header is
type, 2-byte big-endian version, 2-byte big-endian length; checks are made
in the source's order: type, version major byte, maximum length, available
payload. -/
def handshakeRecord : List Byte → Except HSErr (List Byte)
  | typ :: v1 :: v2 :: l1 :: l2 :: rest =>
    let vers : Nat := v1.val * 256 + v2.val
    let length : Nat := l1.val * 256 + l2.val
    if typ.val ≠ 22 then
      if typ.val = 0x80 then .error .sslv2
      else .error .notHandshake
    else if vers >>> 8 ≠ 3 then .error (.unsupportedVersion vers)
    else if length > 16384 then .error .recordTooLarge
    else if length > rest.length then .error .unexpectedEOF
    else .ok (rest.take length)
  | _ => .error .unexpectedEOF

/-- Embedding of parseHello from versions.go: parse a TLS handshake record
as a ClientHello message. The 4-byte header is a 1-byte message type and a
3-byte big-endian length accumulated by the source's fold. -/
def parseHello : List Byte → Except HSErr (List Byte)
  | typ :: l1 :: l2 :: l3 :: rest =>
    let length : Nat := [l1, l2, l3].foldl (fun length v => (length <<< 8) ||| v.val) 0
    if typ.val ≠ 1 then .error (.notClientHello typ.val)
    else if length > rest.length then .error .invalidHandshakeLength
    else .ok (rest.take length)
  | _ => .error .handshakeTooShort

/-- Transport-level read errors: end of stream, or any other error
(distinguished by an arbitrary code). -/
inductive IOErr where
  | eof : IOErr
  | other (code : Nat) : IOErr
deriving DecidableEq

/-- The mutable sniffing state of clientHelloConn: the doneCH flag and the
optional pending buffer (Go: buf of type bytes.Buffer, nil when absent). -/
structure ClientHelloConn where
  doneCH : Bool
  buf : Option (List Byte)
deriving DecidableEq

/-- The result of one call to clientHelloConn.Read: the successor sniffing
state, the bytes and error returned to the caller, and the observer
callback invocation, if any, with its arguments (the ClientHello bytes and
the parse error). -/
structure ReadOut where
  state : ClientHelloConn
  data : List Byte
  err : Option IOErr
  observer : Option (List Byte × Option HSErr)
deriving DecidableEq

/-- The bytes handed to the record parser on a read: the pending buffer's
contents, when a buffer exists, followed by the newly delivered bytes. -/
def ClientHelloConn.hbOf (ch : ClientHelloConn) (data : List Byte) : List Byte :=
  match ch.buf with
  | some b => b ++ data
  | none => data

/-- Embedding of clientHelloConn.Read from versions.go. The underlying
Conn.Read has already happened; data is b[:n] and err its error. The early
return fires when doneCH is set or the error is a transport error other
than io.EOF. On ErrUnexpectedEOF from the record parser the combined bytes
are buffered and the sniff continues; on any other outcome doneCH is set,
the observer fn is invoked and the buffer is released. -/
def ClientHelloConn.Read (ch : ClientHelloConn) (data : List Byte) (err : Option IOErr) :
    ReadOut :=
  if ch.doneCH ∨ (err ≠ none ∧ err ≠ some .eof) then
    ⟨ch, data, err, none⟩
  else
    match handshakeRecord (ch.hbOf data) with
    | .error .unexpectedEOF => ⟨⟨false, some (ch.hbOf data)⟩, data, err, none⟩
    | .error herr => ⟨⟨true, none⟩, data, err, some ([], some herr)⟩
    | .ok recPayload =>
      match parseHello recPayload with
      | .error herr => ⟨⟨true, none⟩, data, err, some ([], some herr)⟩
      | .ok hello => ⟨⟨true, none⟩, data, err, some (hello, none)⟩

/-- Embedding of clientHelloConn.Close from versions.go: the pending
buffer, if any, is reset and returned to the pool (so it is absent
afterwards) before the close is delegated to the underlying Conn. -/
def ClientHelloConn.Close (ch : ClientHelloConn) : ClientHelloConn :=
  ⟨ch.doneCH, none⟩

/-- The sniffing state of a freshly wrapped connection (ClientHelloConn
constructor in versions.go): not done, no buffer. -/
def ClientHelloConn.initial : ClientHelloConn :=
  ⟨false, none⟩

/-- Run a sequence of reads: each element of the list is one underlying
read's delivered bytes and error. Returns the final state, the list of
per-read results handed to the caller, and the list of observer
invocations. -/
def runReads : ClientHelloConn → List (List Byte × Option IOErr) →
    ClientHelloConn × List (List Byte × Option IOErr) × List (List Byte × Option HSErr)
  | ch, [] => (ch, [], [])
  | ch, (d, e) :: rest =>
    let out := ch.Read d e
    let (final, rets, obs) := runReads out.state rest
    (final, (out.data, out.err) :: rets, out.observer.toList ++ obs)

/-- The state invariant of the sniffing decorator: once doneCH is set the
pending buffer has been released. -/
def SniffInv (ch : ClientHelloConn) : Prop :=
  ch.doneCH = true → ch.buf = none

theorem vers_shiftRight (v1 v2 : Byte) : (v1.val * 256 + v2.val) >>> 8 = v1.val := by
  rw [Nat.shiftRight_eq_div_pow]
  have h := v2.isLt
  omega

theorem shiftLeft8_or (a b : Nat) (hb : b < 256) : (a <<< 8) ||| b = a * 256 + b := by
  have hb2 : b < 2 ^ 8 := by omega
  have h := Nat.mul_add_lt_is_or hb2 a
  rw [Nat.shiftLeft_eq, Nat.mul_comm a (2 ^ 8), ← h]

theorem hsLength_eq (l1 l2 l3 : Byte) :
    [l1, l2, l3].foldl (fun length v => (length <<< 8) ||| v.val) 0 =
      (l1.val * 256 + l2.val) * 256 + l3.val := by
  simp only [List.foldl]
  rw [shiftLeft8_or 0 l1.val l1.isLt, shiftLeft8_or _ l2.val l2.isLt,
    shiftLeft8_or _ l3.val l3.isLt]
  omega

theorem handshakeRecord_cons (typ v1 v2 l1 l2 : Byte) (rest : List Byte) :
    handshakeRecord (typ :: v1 :: v2 :: l1 :: l2 :: rest) =
      if typ.val ≠ 22 then
        if typ.val = 128 then .error .sslv2 else .error .notHandshake
      else if v1.val ≠ 3 then .error (.unsupportedVersion (v1.val * 256 + v2.val))
      else if l1.val * 256 + l2.val > 16384 then .error .recordTooLarge
      else if l1.val * 256 + l2.val > rest.length then .error .unexpectedEOF
      else .ok (rest.take (l1.val * 256 + l2.val)) := by
  simp only [handshakeRecord, vers_shiftRight]

theorem parseHello_cons (typ l1 l2 l3 : Byte) (rest : List Byte) :
    parseHello (typ :: l1 :: l2 :: l3 :: rest) =
      if typ.val ≠ 1 then .error (.notClientHello typ.val)
      else if (l1.val * 256 + l2.val) * 256 + l3.val > rest.length then
        .error .invalidHandshakeLength
      else .ok (rest.take ((l1.val * 256 + l2.val) * 256 + l3.val)) := by
  simp only [parseHello, hsLength_eq]

/-- Claim C3: the record parser returns the need-more-data sentinel on
fewer than 5 bytes, and on a valid 5-byte header (type 22, version high
byte 3, length at most 16384) with fewer payload bytes than declared;
with a valid header and enough payload bytes it returns exactly the
declared number of bytes immediately following the header. -/
theorem handshakeRecord_needMoreData_complete :
    (∀ b : List Byte, b.length < 5 → handshakeRecord b = .error .unexpectedEOF) ∧
    (∀ (typ v1 v2 l1 l2 : Byte) (rest : List Byte),
      typ.val = 22 → v1.val = 3 → l1.val * 256 + l2.val ≤ 16384 →
      rest.length < l1.val * 256 + l2.val →
      handshakeRecord (typ :: v1 :: v2 :: l1 :: l2 :: rest) = .error .unexpectedEOF) ∧
    (∀ (typ v1 v2 l1 l2 : Byte) (rest : List Byte),
      typ.val = 22 → v1.val = 3 → l1.val * 256 + l2.val ≤ 16384 →
      l1.val * 256 + l2.val ≤ rest.length →
      handshakeRecord (typ :: v1 :: v2 :: l1 :: l2 :: rest) =
        .ok (rest.take (l1.val * 256 + l2.val)) ∧
      (rest.take (l1.val * 256 + l2.val)).length = l1.val * 256 + l2.val) := by
  refine ⟨?_, ?_, ?_⟩
  · intro b hb
    rcases b with _ | ⟨a0, _ | ⟨a1, _ | ⟨a2, _ | ⟨a3, _ | ⟨a4, tl⟩⟩⟩⟩⟩
    · rfl
    · rfl
    · rfl
    · rfl
    · rfl
    · simp only [List.length_cons] at hb
      omega
  · intro typ v1 v2 l1 l2 rest ht hv hmax hshort
    rw [handshakeRecord_cons, if_neg (by omega), if_neg (by omega), if_neg (by omega),
      if_pos (by omega)]
  · intro typ v1 v2 l1 l2 rest ht hv hmax hlen
    rw [handshakeRecord_cons, if_neg (by omega), if_neg (by omega), if_neg (by omega),
      if_neg (by omega)]
    exact ⟨rfl, by rw [List.length_take]; omega⟩

/-- Claim C3 witness: concrete instances of the three cases. -/
theorem handshakeRecord_needMoreData_complete_witness :
    handshakeRecord [22] = .error .unexpectedEOF ∧
    handshakeRecord [22, 3, 1, 0, 1] = .error .unexpectedEOF ∧
    (handshakeRecord [22, 3, 1, 0, 1, 9] = .ok [9] ∧
      (([9] : List Byte).take 1).length = 1) :=
  ⟨handshakeRecord_needMoreData_complete.1 [22] (by decide),
   handshakeRecord_needMoreData_complete.2.1 22 3 1 0 1 [] (by decide) (by decide)
     (by decide) (by decide),
   handshakeRecord_needMoreData_complete.2.2 22 3 1 0 1 [9] (by decide) (by decide)
     (by decide) (by decide)⟩

/-- Claim C4 counterexample: an input of a single byte 0x80 yields the
need-more-data sentinel, not the SSLv2 error, because the 5-byte length
check precedes the type check; so the claim's quantification over every
input whose first byte is 0x80 fails. -/
theorem handshakeRecord_sslv2_counterexample :
    handshakeRecord [(128 : Byte)] = .error .unexpectedEOF ∧
    handshakeRecord [(128 : Byte)] ≠ .error .sslv2 := by
  decide

/-- Claim C4 (amended): for every input of at least 5 bytes whose first
byte is 0x80 the record parser yields the SSLv2 error regardless of
subsequent bytes, and for every input of at least 5 bytes whose first byte
is neither 22 nor 0x80 it yields the not-a-handshake-record error. -/
theorem handshakeRecord_typeByte_classification :
    (∀ (typ v1 v2 l1 l2 : Byte) (rest : List Byte), typ.val = 128 →
      handshakeRecord (typ :: v1 :: v2 :: l1 :: l2 :: rest) = .error .sslv2) ∧
    (∀ (typ v1 v2 l1 l2 : Byte) (rest : List Byte), typ.val ≠ 22 → typ.val ≠ 128 →
      handshakeRecord (typ :: v1 :: v2 :: l1 :: l2 :: rest) = .error .notHandshake) := by
  constructor
  · intro typ v1 v2 l1 l2 rest ht
    rw [handshakeRecord_cons, if_pos (by omega), if_pos ht]
  · intro typ v1 v2 l1 l2 rest ht h80
    rw [handshakeRecord_cons, if_pos ht, if_neg h80]

/-- Claim C4 witness: concrete instances of both amended cases. -/
theorem handshakeRecord_typeByte_classification_witness :
    handshakeRecord [128, 99, 99, 99, 99] = .error .sslv2 ∧
    handshakeRecord [23, 3, 1, 0, 0] = .error .notHandshake :=
  ⟨handshakeRecord_typeByte_classification.1 128 99 99 99 99 [] (by decide),
   handshakeRecord_typeByte_classification.2 23 3 1 0 0 [] (by decide) (by decide)⟩

/-- Claim C5: with a complete 5-byte header of type 22 and version high
byte 3 whose declared length exceeds 16384, the record parser returns the
record-too-large error immediately, for any number of payload bytes
present (in particular fewer than declared). -/
theorem handshakeRecord_recordTooLarge (typ v1 v2 l1 l2 : Byte) (rest : List Byte)
    (ht : typ.val = 22) (hv : v1.val = 3) (hl : 16384 < l1.val * 256 + l2.val) :
    handshakeRecord (typ :: v1 :: v2 :: l1 :: l2 :: rest) = .error .recordTooLarge := by
  rw [handshakeRecord_cons, if_neg (by omega), if_neg (by omega), if_pos (by omega)]

/-- Claim C5 witness: declared length 16385 with no payload bytes at all. -/
theorem handshakeRecord_recordTooLarge_witness :
    handshakeRecord [22, 3, 1, 64, 1] = .error .recordTooLarge :=
  handshakeRecord_recordTooLarge 22 3 1 64 1 [] (by decide) (by decide) (by decide)

theorem parseHello_short (b : List Byte) (hb : b.length < 4) :
    parseHello b = .error .handshakeTooShort := by
  rcases b with _ | ⟨a0, _ | ⟨a1, _ | ⟨a2, _ | ⟨a3, tl⟩⟩⟩⟩
  · rfl
  · rfl
  · rfl
  · rfl
  · simp only [List.length_cons] at hb
    omega

/-- Claim C6: a record payload of fewer than 4 bytes makes the handshake
parser return the terminal handshake-header-too-short error (never the
need-more-data sentinel), and on such a payload the connection decorator
fires the observer with that error and stops sniffing instead of
buffering. -/
theorem parseHello_tooShort_terminal :
    (∀ b : List Byte, b.length < 4 → parseHello b = .error .handshakeTooShort) ∧
    (∀ (ch : ClientHelloConn) (d : List Byte) (e : Option IOErr) (r : List Byte),
      ch.doneCH = false → (e = none ∨ e = some .eof) →
      handshakeRecord (ch.hbOf d) = .ok r → r.length < 4 →
      (ch.Read d e).observer = some ([], some .handshakeTooShort) ∧
      (ch.Read d e).state = ⟨true, none⟩) := by
  refine ⟨parseHello_short, ?_⟩
  intro ch d e r hdone he hr hlen
  rcases he with he | he <;>
    simp [ClientHelloConn.Read, hdone, he, hr, parseHello_short r hlen]

/-- Claim C6 witness: payload of length 0 inside a complete record, fed
through a fresh connection in a single read. -/
theorem parseHello_tooShort_terminal_witness :
    parseHello [1, 0, 0] = .error .handshakeTooShort ∧
    ((ClientHelloConn.Read ClientHelloConn.initial [22, 3, 1, 0, 0] none).observer =
        some ([], some .handshakeTooShort) ∧
      (ClientHelloConn.Read ClientHelloConn.initial [22, 3, 1, 0, 0] none).state =
        ⟨true, none⟩) :=
  ⟨parseHello_tooShort_terminal.1 [1, 0, 0] (by decide),
   parseHello_tooShort_terminal.2 ClientHelloConn.initial [22, 3, 1, 0, 0] none []
     rfl (Or.inl rfl) (by decide) (by decide)⟩

/-- Claim C7: on a record payload of at least 4 bytes whose first byte is
the ClientHello type 1 and whose 3-byte big-endian declared length is at
most the remaining byte count, the handshake parser returns exactly the
declared-length body, ignoring trailing bytes; and the record
16 03 01 00 04 with payload 01 00 00 00 yields a complete, empty
ClientHello body. -/
theorem parseHello_complete :
    (∀ (typ l1 l2 l3 : Byte) (rest : List Byte),
      typ.val = 1 → (l1.val * 256 + l2.val) * 256 + l3.val ≤ rest.length →
      parseHello (typ :: l1 :: l2 :: l3 :: rest) =
        .ok (rest.take ((l1.val * 256 + l2.val) * 256 + l3.val)) ∧
      (rest.take ((l1.val * 256 + l2.val) * 256 + l3.val)).length =
        (l1.val * 256 + l2.val) * 256 + l3.val) ∧
    (handshakeRecord [22, 3, 1, 0, 4, 1, 0, 0, 0] = .ok [1, 0, 0, 0] ∧
      parseHello [1, 0, 0, 0] = .ok ([] : List Byte)) := by
  constructor
  · intro typ l1 l2 l3 rest ht hlen
    rw [parseHello_cons, if_neg (by omega), if_neg (by omega)]
    exact ⟨rfl, by rw [List.length_take]; omega⟩
  · exact ⟨by decide, by decide⟩

/-- Claim C7 witness: a two-byte body followed by a trailing byte that is
ignored. -/
theorem parseHello_complete_witness :
    (parseHello [1, 0, 0, 2, 5, 6, 7] = .ok [5, 6] ∧
      (([5, 6, 7] : List Byte).take 2).length = 2) ∧
    handshakeRecord [22, 3, 1, 0, 4, 1, 0, 0, 0] = .ok [1, 0, 0, 0] :=
  ⟨parseHello_complete.1 1 0 0 2 [5, 6, 7] (by decide) (by decide),
   parseHello_complete.2.1⟩

/-- Claim C10: both parsers are total and in-bounds: whenever a parser
returns a payload, the payload lies entirely inside the input, immediately
after the fixed-size header, so every slice the source takes is covered by
a preceding length check. -/
theorem parsers_total_inbounds :
    (∀ (b p : List Byte), handshakeRecord b = .ok p →
      5 + p.length ≤ b.length ∧ p = (b.drop 5).take p.length) ∧
    (∀ (b p : List Byte), parseHello b = .ok p →
      4 + p.length ≤ b.length ∧ p = (b.drop 4).take p.length) := by
  constructor
  · intro b p hp
    rcases b with _ | ⟨a0, _ | ⟨a1, _ | ⟨a2, _ | ⟨a3, _ | ⟨a4, tl⟩⟩⟩⟩⟩
    · exact Except.noConfusion hp
    · exact Except.noConfusion hp
    · exact Except.noConfusion hp
    · exact Except.noConfusion hp
    · exact Except.noConfusion hp
    · rw [handshakeRecord_cons] at hp
      split_ifs at hp with h1 h2 h3 h4 h5
      obtain rfl : tl.take (a3.val * 256 + a4.val) = p := by
        injection hp
      constructor
      · simp only [List.length_cons, List.length_take]
        omega
      · have hdrop : (a0 :: a1 :: a2 :: a3 :: a4 :: tl).drop 5 = tl := rfl
        rw [hdrop, List.length_take]
        congr 1
        omega
  · intro b p hp
    rcases b with _ | ⟨a0, _ | ⟨a1, _ | ⟨a2, _ | ⟨a3, tl⟩⟩⟩⟩
    · exact Except.noConfusion hp
    · exact Except.noConfusion hp
    · exact Except.noConfusion hp
    · exact Except.noConfusion hp
    · rw [parseHello_cons] at hp
      split_ifs at hp with h1 h2
      obtain rfl : tl.take ((a1.val * 256 + a2.val) * 256 + a3.val) = p := by
        injection hp
      constructor
      · simp only [List.length_cons, List.length_take]
        omega
      · have hdrop : (a0 :: a1 :: a2 :: a3 :: tl).drop 4 = tl := rfl
        rw [hdrop, List.length_take]
        congr 1
        omega

/-- Claim C10 witness: the in-bounds facts at the example record and
payload. -/
theorem parsers_total_inbounds_witness :
    (5 + ([1, 0, 0, 0] : List Byte).length ≤
        ([22, 3, 1, 0, 4, 1, 0, 0, 0] : List Byte).length ∧
      ([1, 0, 0, 0] : List Byte) =
        (([22, 3, 1, 0, 4, 1, 0, 0, 0] : List Byte).drop 5).take
          ([1, 0, 0, 0] : List Byte).length) ∧
    (4 + ([] : List Byte).length ≤ ([1, 0, 0, 0] : List Byte).length ∧
      ([] : List Byte) =
        (([1, 0, 0, 0] : List Byte).drop 4).take ([] : List Byte).length) :=
  ⟨parsers_total_inbounds.1 [22, 3, 1, 0, 4, 1, 0, 0, 0] [1, 0, 0, 0] (by decide),
   parsers_total_inbounds.2 [1, 0, 0, 0] [] (by decide)⟩

theorem read_preserves (ch : ClientHelloConn) (d : List Byte) (e : Option IOErr) :
    (ch.Read d e).data = d ∧ (ch.Read d e).err = e := by
  unfold ClientHelloConn.Read
  repeat' split
  all_goals exact ⟨rfl, rfl⟩

theorem runReads_returns (chunks : List (List Byte × Option IOErr))
    (ch : ClientHelloConn) : (runReads ch chunks).2.1 = chunks := by
  induction chunks generalizing ch with
  | nil => rfl
  | cons hd tl ih =>
    obtain ⟨d, e⟩ := hd
    have h := read_preserves ch d e
    simp only [runReads]
    rw [h.1, h.2, ih]

theorem read_done_passThrough (ch : ClientHelloConn) (d : List Byte) (e : Option IOErr)
    (h : ch.doneCH = true) : ch.Read d e = ⟨ch, d, e, none⟩ := by
  unfold ClientHelloConn.Read
  rw [if_pos (Or.inl h)]

theorem read_observer_sets_done (ch : ClientHelloConn) (d : List Byte) (e : Option IOErr)
    (h : (ch.Read d e).observer ≠ none) : (ch.Read d e).state.doneCH = true := by
  revert h
  unfold ClientHelloConn.Read
  repeat' split
  all_goals intro h
  all_goals first | rfl | exact absurd rfl h

theorem runReads_done (chunks : List (List Byte × Option IOErr)) (ch : ClientHelloConn)
    (h : ch.doneCH = true) : (runReads ch chunks).2.2 = [] := by
  induction chunks generalizing ch with
  | nil => rfl
  | cons hd tl ih =>
    obtain ⟨d, e⟩ := hd
    simp only [runReads, read_done_passThrough ch d e h]
    rw [Option.toList_none, List.nil_append]
    exact ih ch h

theorem runReads_obs_le_one (chunks : List (List Byte × Option IOErr))
    (ch : ClientHelloConn) : (runReads ch chunks).2.2.length ≤ 1 := by
  induction chunks generalizing ch with
  | nil => simp [runReads]
  | cons hd tl ih =>
    obtain ⟨d, e⟩ := hd
    simp only [runReads, List.length_append]
    rcases hobs : (ch.Read d e).observer with _ | ob
    · rw [Option.toList_none]
      simpa using ih (ch.Read d e).state
    · have hdone := read_observer_sets_done ch d e (by simp [hobs])
      rw [Option.toList_some, runReads_done tl _ hdone]
      simp

/-- Claim C1 counterexample: with an outstanding buffer, a read that fails
with a transport error does not invoke the observer, does not release the
buffer and does not leave sniffing finished — and a later successful read
resumes parsing and fires the observer — contradicting the claim that a
transport error aborts sniffing and delivers the error to the observer. -/
theorem transportError_abort_counterexample :
    (ClientHelloConn.Read ⟨false, some [(22 : Byte)]⟩ [] (some (.other 0))).observer =
      none ∧
    (ClientHelloConn.Read ⟨false, some [(22 : Byte)]⟩ [] (some (.other 0))).state =
      ⟨false, some [(22 : Byte)]⟩ ∧
    (ClientHelloConn.Read ⟨false, some [(22 : Byte)]⟩ [3, 1, 0, 0] none).observer =
      some ([], some .handshakeTooShort) := by
  decide

/-- Claim C1 (amended): if an underlying read returns a transport-level
error other than EOF, that read performs no parsing or buffering and
returns the transport's bytes and error unchanged; the observer is not
invoked and the sniffing state, including any outstanding buffer, is left
exactly as it was, so sniffing resumes on a later successful read. -/
theorem transportError_skips_sniffing (ch : ClientHelloConn) (d : List Byte)
    (e : Option IOErr) (he : e ≠ none) (heof : e ≠ some .eof) :
    ch.Read d e = ⟨ch, d, e, none⟩ := by
  unfold ClientHelloConn.Read
  rw [if_pos (Or.inr ⟨he, heof⟩)]

/-- Claim C1 witness: a non-EOF transport error on a connection holding a
buffer. -/
theorem transportError_skips_sniffing_witness :
    ClientHelloConn.Read ⟨false, some [(22 : Byte)]⟩ [] (some (.other 7)) =
      ⟨⟨false, some [(22 : Byte)]⟩, [], some (.other 7), none⟩ :=
  transportError_skips_sniffing ⟨false, some [(22 : Byte)]⟩ [] (some (.other 7))
    (by decide) (by decide)

/-- Claim C2: every read hands the caller exactly the bytes and error the
underlying transport produced, in every state; consequently, over any
sequence of reads the per-read results equal the underlying results and
the concatenation of returned bytes equals the original unchopped
sequence. -/
theorem clientHelloConn_transparent :
    (∀ (ch : ClientHelloConn) (d : List Byte) (e : Option IOErr),
      (ch.Read d e).data = d ∧ (ch.Read d e).err = e) ∧
    (∀ (ch : ClientHelloConn) (chunks : List (List Byte × Option IOErr)),
      (runReads ch chunks).2.1 = chunks ∧
      ((runReads ch chunks).2.1.map Prod.fst).flatten = (chunks.map Prod.fst).flatten) :=
  ⟨read_preserves, fun ch chunks =>
    ⟨runReads_returns chunks ch, by rw [runReads_returns chunks ch]⟩⟩

/-- Claim C8: once doneCH is set a read is a pure pass-through (state
unchanged, transport result returned unmodified, no observer call), and
over any sequence of reads from any state the observer is invoked at most
once. -/
theorem clientHelloConn_passThrough_once :
    (∀ (ch : ClientHelloConn) (d : List Byte) (e : Option IOErr),
      ch.doneCH = true → ch.Read d e = ⟨ch, d, e, none⟩) ∧
    (∀ (ch : ClientHelloConn) (chunks : List (List Byte × Option IOErr)),
      (runReads ch chunks).2.2.length ≤ 1) :=
  ⟨read_done_passThrough, fun ch chunks => runReads_obs_le_one chunks ch⟩

/-- Claim C8 witness: a finished connection passes a read through
unmodified, and a fresh connection fed a complete ClientHello in two
chunks fires the observer at most once. -/
theorem clientHelloConn_passThrough_once_witness :
    ClientHelloConn.Read ⟨true, none⟩ [22] (some .eof) =
      ⟨⟨true, none⟩, [22], some .eof, none⟩ ∧
    (runReads ClientHelloConn.initial
      [([22, 3, 1], none), ([0, 4, 1, 0, 0, 0], none), ([99], none)]).2.2.length ≤ 1 :=
  ⟨clientHelloConn_passThrough_once.1 ⟨true, none⟩ [22] (some .eof) rfl,
   clientHelloConn_passThrough_once.2 ClientHelloConn.initial
     [([22, 3, 1], none), ([0, 4, 1, 0, 0, 0], none), ([99], none)]⟩

/-- Claim C9: the sniff-state invariant — doneCH set implies the pending
buffer has been released — holds initially and is preserved by every read
step, and closing the connection always leaves the buffer released,
regardless of sniffing state. -/
theorem sniffInv_preserved :
    SniffInv ClientHelloConn.initial ∧
    (∀ (ch : ClientHelloConn) (d : List Byte) (e : Option IOErr),
      SniffInv ch → SniffInv (ch.Read d e).state) ∧
    (∀ ch : ClientHelloConn, ch.Close.buf = none) := by
  refine ⟨fun _ => rfl, ?_, fun ch => rfl⟩
  intro ch d e hinv
  unfold ClientHelloConn.Read
  repeat' split
  · exact hinv
  · intro h
    exact absurd h Bool.false_ne_true
  all_goals intro h
  all_goals rfl

/-- Claim C9 witness: the invariant after one read on a fresh connection,
and closing a connection that holds a buffer. -/
theorem sniffInv_preserved_witness :
    SniffInv (ClientHelloConn.Read ClientHelloConn.initial [22] none).state ∧
    ClientHelloConn.Close ⟨false, some [(22 : Byte)]⟩ = ⟨false, none⟩ :=
  ⟨sniffInv_preserved.2.1 ClientHelloConn.initial [22] none (fun _ => rfl), by decide⟩
